import Mathlib

/-!
# Verification of the `asitiger` command/response protocol layer

Shallow embedding of `src/asitiger/command.py` and
`src/asitiger/tigercontroller.py`, together with proofs that settle the
claims of the specification against the code.

Modelling conventions:
* Python `dict`s are embedded as association lists in insertion order
  (Python dicts preserve insertion order); dict assignment updates an
  existing key in place or appends a new one.
* Python values that a command may carry (`int`, `float`, `str`) are
  embedded as `PyVal`.  A Python `float` is carried by its `repr` text:
  the only observations `command.py` makes of a float are `str(value)`
  and `isinstance(value, float)`, both of which this representation
  supports exactly.
* Numbers inside the controller (stage limits, positions, coordinates)
  are embedded as `PyNum`: an exact integer or a float modelled as an
  exact rational (IEEE rounding is not modelled; every claim is settled
  on values where float arithmetic is exact).
* Exceptions are embedded as `Except Err`; stateful methods thread an
  explicit `CtrlState` so that the state at the moment an exception
  escapes is visible in the result.
-/

namespace Asitiger

instance {ε α : Type} [DecidableEq ε] [DecidableEq α] : DecidableEq (Except ε α) := fun a b =>
  match a, b with
  | .error e, .error f =>
    if h : e = f then .isTrue (by rw [h]) else .isFalse (fun hc => h (Except.error.inj hc))
  | .ok x, .ok y =>
    if h : x = y then .isTrue (by rw [h]) else .isFalse (fun hc => h (Except.ok.inj hc))
  | .error _, .ok _ => .isFalse (fun hc => Except.noConfusion hc)
  | .ok _, .error _ => .isFalse (fun hc => Except.noConfusion hc)

/-- The characters Python's `\s` matches in ASCII text (the wire protocol
is ASCII). -/
def wsChars : List Char := [' ', '\t', '\n', '\x0b', '\x0c', '\r']

def isWs (c : Char) : Bool := wsChars.contains c

/-- A Python value passed to the command encoder: an `int`, a `float`
(carried by its `repr` text, see the module docstring), or a `str`. -/
inductive PyVal where
  | int (i : Int)
  | float (text : String)
  | str (s : String)
deriving DecidableEq, Repr

/-- Python `str(value)` for the values the encoder handles. -/
def pyStr : PyVal → String
  | .int i => toString i
  | .float t => t
  | .str s => s

/-- Python `value in flag_overrides` where `flag_overrides` is a list of
strings: `int`/`float` values never compare equal to a `str`, so only a
`str` value can be a member. -/
def pyValInFlags (v : PyVal) (flags : List String) : Bool :=
  match v with
  | .str s => flags.contains s
  | _ => false

namespace Command

def BUILD : String := "BU"
def CRISP_GET_STATE : String := "LK X"
def CRISP_NUM_AVG : String := "RT F"
def CRISP_SET_STATE : String := "LK F"
def CRISP_UNLOCK : String := "UL"
def MOVE : String := "M"
def MOVREL : String := "R"
def STATUS : String := "/"
def WHERE : String := "W"

def NUMERAL_MAX_LENGTH : Nat := 16

/-- The truncation applied to a numeral's text: cut to
`_NUMERAL_MAX_LENGTH` characters when longer (a warning is logged in the
source; logging has no other effect and is not modelled). -/
def truncNumeral (s : String) : String :=
  if NUMERAL_MAX_LENGTH < s.length then s.take NUMERAL_MAX_LENGTH else s

/-- `Command.format_coordinate`: a value that is a member of
`flag_overrides` is rendered as the bare token `AXISvalue`; any other
value is rendered `AXIS=value`, with `str(value)` truncated to 16
characters when longer. -/
def format_coordinate (axis : String) (value : PyVal) (flag_overrides : List String) :
    String :=
  if pyValInFlags value flag_overrides then
    axis ++ pyStr value
  else
    axis ++ "=" ++ truncNumeral (pyStr value)

/-- `Command.format_coordinates`: `" ".join(...)` of the rendered
coordinates, in the insertion order of the coordinate map. -/
def format_coordinates (coordinates : List (String × PyVal))
    (flag_overrides : List String) : String :=
  String.intercalate " " (coordinates.map fun p => format_coordinate p.1 p.2 flag_overrides)

/-- `Command.format`: appends the rendered coordinates after one space
when the coordinate map is non-empty (`if coordinates:`), then prefixes
the card address when it is truthy (`if card_address:` — a `None` or `0`
address is not prefixed). -/
def format (command : String) (coordinates : List (String × PyVal))
    (flag_overrides : List String) (card_address : Option Int) : String :=
  let command :=
    if coordinates.isEmpty then command
    else command ++ " " ++ format_coordinates coordinates flag_overrides
  match card_address with
  | some a => if a = 0 then command else toString a ++ command
  | none => command

/-- `Command.format_crisp`: only a `float` value is length-checked
(`isinstance(value, float)`), and when its text exceeds 16 characters it
is replaced by the truncated text (a `str` from then on).  A present
value renders as `{address}{command}={value}`, an absent one as
`{address}{command}?`; the address is always prefixed. -/
def format_crisp (command : String) (card_address : Int) (value : Option PyVal) :
    String :=
  let value :=
    match value with
    | some (.float t) =>
        if NUMERAL_MAX_LENGTH < t.length then some (.str (t.take NUMERAL_MAX_LENGTH))
        else some (.float t)
    | v => v
  match value with
  | some v => toString card_address ++ command ++ "=" ++ pyStr v
  | none => toString card_address ++ command ++ "?"

end Command

/-! ## Response parsing (`TigerController._dict_from_response` and friends) -/

/-- Split a character list at every whitespace character, keeping empty
pieces (one per separator), like `re.split` on a single-char class. -/
def splitAtWs : List Char → List (List Char)
  | [] => [[]]
  | c :: cs =>
    if isWs c then [] :: splitAtWs cs
    else
      match splitAtWs cs with
      | [] => [[c]]
      | w :: ws => (c :: w) :: ws

/-- `re.split(r"\s+", s.strip())`: the non-empty maximal runs of
non-whitespace characters, in order.  (For an all-whitespace input Python
returns `[""]` where this returns `[]`; `_dict_from_response` drops the
first token, so the two agree on every dictionary it ever builds.) -/
def splitWsChars (l : List Char) : List (List Char) :=
  (splitAtWs l).filter fun w => !w.isEmpty

/-- Python `text.split(sep)` for a single-character separator: split at
every occurrence, keeping empty pieces. -/
def splitOnChar (sep : Char) : List Char → List (List Char)
  | [] => [[]]
  | c :: cs =>
    if c = sep then [] :: splitOnChar sep cs
    else
      match splitOnChar sep cs with
      | [] => [[c]]
      | w :: ws => (c :: w) :: ws

/-- Python `text.split("=")`. -/
def splitEqChar (l : List Char) : List (List Char) := splitOnChar '=' l

/-- The key/value unpacking of `_dict_from_response`: split each token
on `=` and unpack into a pair.  A token that does not split into exactly
two pieces makes the Python unpacking raise `ValueError`, modelled as
`none` for the whole call. -/
def pairsOfTokens : List (List Char) → Option (List (String × String))
  | [] => some []
  | t :: ts =>
    match splitEqChar t with
    | [k, v] =>
      match pairsOfTokens ts with
      | some ps => some ((String.mk k, String.mk v) :: ps)
      | none => none
    | _ => none

/-- `TigerController._dict_from_response` with the default identity cast:
tokenize on whitespace, drop the first token (the acknowledgment marker),
split each remaining token on `=` and unpack into key/value pairs.  The
resulting Python dict is modelled as the association list of pairs in
order; a duplicated key overwrites, so a lookup reads the last binding
(`pyDictGet`). -/
def dict_from_response (serial_response : String) : Option (List (String × String)) :=
  let tokens := splitWsChars serial_response.data
  pairsOfTokens (tokens.drop 1)

/-- Lookup in an association list with Python-dict semantics: the most
recent binding of a key wins. -/
def pyDictGet (l : List (String × String)) (key : String) : Option String :=
  List.lookup key l.reverse

/-! ## Numbers inside the controller

Python `int` and `float` values flowing through `TigerController` (stage
limits, positions, move coordinates).  A float is modelled as an exact
rational: all claims are settled on values where IEEE arithmetic is
exact. -/

inductive PyNum where
  | int (i : Int)
  | float (q : ℚ)
deriving DecidableEq, Repr

def PyNum.toQ : PyNum → ℚ
  | .int i => (i : ℚ)
  | .float q => q

/-- Python `x - d` for `x` an int or float and `d` an int: int−int is an
int, float−int a float. -/
def PyNum.subInt : PyNum → Int → PyNum
  | .int i, d => .int (i - d)
  | .float q, d => .float (q - (d : ℚ))

/-- Python `x + d` for `x` an int or float and `d` an int. -/
def PyNum.addInt : PyNum → Int → PyNum
  | .int i, d => .int (i + d)
  | .float q, d => .float (q + (d : ℚ))

def digitsToNat (l : List Char) : Nat :=
  l.foldl (fun n c => 10 * n + (c.toNat - 48)) 0

/-- Python `int(text)`: an optional sign followed by at least one digit.
(Python also tolerates surrounding whitespace and `_` digit separators;
no code path in the repository feeds it such text, so they are not
modelled.) -/
def pyParseInt (s : String) : Option Int :=
  match s.data with
  | '-' :: rest =>
    if !rest.isEmpty && rest.all Char.isDigit then some (-(digitsToNat rest : Int)) else none
  | '+' :: rest =>
    if !rest.isEmpty && rest.all Char.isDigit then some ((digitsToNat rest : Int)) else none
  | l =>
    if !l.isEmpty && l.all Char.isDigit then some ((digitsToNat l : Int)) else none

/-- Python `float(text)` read as an exact rational: an optional sign, an
integer part, and an optional `.` fraction, with at least one digit in
total.  (Exponent notation, `inf`/`nan` and IEEE rounding are not
modelled; no claim depends on them.) -/
def pyParseFloatQ (s : String) : Option ℚ :=
  let signed : Int × List Char :=
    match s.data with
    | '-' :: r => (-1, r)
    | '+' :: r => (1, r)
    | l => (1, l)
  let sgn := signed.1
  let l := signed.2
  let ip := l.takeWhile Char.isDigit
  let rest := l.dropWhile Char.isDigit
  match rest with
  | [] => if ip.isEmpty then none else some (mkRat (sgn * (digitsToNat ip : Int)) 1)
  | '.' :: fp =>
    if fp.all Char.isDigit && !(ip.isEmpty && fp.isEmpty) then
      some (mkRat
        (sgn * ((digitsToNat ip * 10 ^ fp.length + digitsToNat fp : Nat) : Int))
        (10 ^ fp.length))
    else none
  | _ => none

/-- Python `int(x)` on a float: truncation toward zero. -/
def pyTrunc (q : ℚ) : Int := q.num.tdiv (q.den : Int)

/-- `TigerController._cast_number`: try `int(text)` first, fall back to
`float(text)`; if both fail the `ValueError` escapes uncaught. -/
def cast_number (s : String) : Option PyNum :=
  match pyParseInt s with
  | some i => some (.int i)
  | none => (pyParseFloatQ s).map .float

/-- Decimal text of an exact rational whose denominator divides a power
of ten, with Python's trailing `.0` for integral floats.  This stands in
for Python's float `repr` when the controller hands a non-integer
coordinate to the encoder; it is exact on terminating decimals (Python's
shortest-roundtrip repr is not modelled, and no claim reaches this
function on other values). -/
def qDecRepr (q : ℚ) : String :=
  match (List.range 51).find? (fun k => (10 ^ k : ℕ) % q.den = 0) with
  | some k =>
    let n : Int := q.num * ((10 : ℤ) ^ k / (q.den : ℤ))
    let sign := if n < 0 then "-" else ""
    let a := n.natAbs
    let ip := a / 10 ^ k
    let fp := a % 10 ^ k
    let fps := toString fp
    let fps := String.mk (List.replicate (k - fps.length) '0') ++ fps
    if k = 0 then sign ++ toString ip ++ ".0"
    else sign ++ toString ip ++ "." ++ fps
  | none => toString q.num ++ "/" ++ toString q.den

/-- The value a controller coordinate presents to the command encoder:
an integer stays a Python int, anything else is a float text. -/
def PyNum.toPyVal : PyNum → PyVal
  | .int i => .int i
  | .float q => .float (qDecRepr q)

/-! ## Controller state and transactions (`tigercontroller.py`) -/

/-- The error taxonomy.  Modelled from the spec: `errors.py` is not
under `src/`; §7 names the typed errors this layer raises
(`ParameterOutOfRangeError`, `MissingParametersError`, instrument and
transport errors).  `keyError`, `valueError` and `attributeError` stand
for the corresponding uncaught Python exceptions. -/
inductive Err where
  | parameterOutOfRange
  | missingParameters
  | instrumentError
  | transportError
  | keyError
  | valueError
  | attributeError
deriving DecidableEq, Repr

/-- The observable state of a `TigerController`: the configured stage
limits, the log of strings written to the transport, and the scripted
responses the transport will return, in order. -/
structure CtrlState where
  stage_limits : Option (List (String × PyNum × PyNum))
  writes : List String
  responses : List String
deriving DecidableEq, Repr

def SAFE_STAGE_LIMITS : List (String × PyNum × PyNum) :=
  [("X", (.int (-65000), .int 65000)),
   ("Y", (.int (-190000), .int 190000)),
   ("Z", (.int (-9000), .int 9800))]

/-- Modelled from the spec: `errors.py` is not under `src/`.
`Errors.raise_error_if_present` inspects the response for the
instrument's error marker and raises a typed instrument error (§4.4);
the marker's syntax is not fixed by the spec and is modelled as a
leading `":N"`.  Every scripted response used below is a benign `":A"`
acknowledgment, so no claim depends on the marker's exact shape. -/
def errorMarkerPresent (response : String) : Bool :=
  match response.data with
  | ':' :: 'N' :: _ => true
  | _ => false

/-- `TigerController.send_command`: write the command, read exactly one
response, then run the error classifier.  The mutex is not modelled (the
embedding is single-threaded); an exhausted response script is a
transport failure. -/
def send_command (st : CtrlState) (command : String) : Except Err String × CtrlState :=
  let st := { st with writes := st.writes ++ [command] }
  match st.responses with
  | [] => (.error .transportError, st)
  | r :: rest =>
    let st := { st with responses := rest }
    if errorMarkerPresent r then (.error .instrumentError, st) else (.ok r, st)

/-- `TigerController.where`: send `"W "` + the joined axes, split the
response on single spaces, drop the acknowledgment token and cast each
coordinate with `_cast_number` (an uncaught `ValueError` if a cast
fails). -/
def whereCmd (st : CtrlState) (axes : List String) :
    Except Err (List (String × PyNum)) × CtrlState :=
  match send_command st (Command.WHERE ++ " " ++ String.intercalate " " axes) with
  | (.error e, st') => (.error e, st')
  | (.ok response, st') =>
    let coordinates := ((splitOnChar ' ' response.data).map String.mk).drop 1
    match (axes.zip coordinates).mapM (fun p => (cast_number p.2).map fun n => (p.1, n)) with
    | some pos => (.ok pos, st')
    | none => (.error .valueError, st')

/-- Python dict assignment `d[k] = v` on an association list: update the
existing binding in place, or append a new one. -/
def dictSet {α : Type} (l : List (String × α)) (k : String) (v : α) : List (String × α) :=
  if l.any (fun p => p.1 == k) then l.map (fun p => if p.1 == k then (k, v) else p)
  else l ++ [(k, v)]

/-- `TigerController.get_stage_limits`: a copy of the configured table
(`none` would make the Python attribute access raise, surfaced by
callers as `Err.attributeError`). -/
def get_stage_limits (st : CtrlState) : Option (List (String × PyNum × PyNum)) :=
  st.stage_limits

/-- `TigerController.set_stage_limits`: reject a table missing any of
`X`, `Y`, `Z`, otherwise replace the configured table with a copy. -/
def set_stage_limits (st : CtrlState) (stage_limits : List (String × PyNum × PyNum)) :
    Except Err Unit × CtrlState :=
  if ["X", "Y", "Z"].all (fun ax => stage_limits.any (fun p => p.1 == ax)) then
    (.ok (), { st with stage_limits := some stage_limits })
  else
    (.error .missingParameters, st)

/-- The `for key in relative_limits.keys()` loop of
`set_stage_limits_relative`: a positive delta raises
`ParameterOutOfRangeError`; otherwise the axis entry of the local copy
becomes `(curr_pos[key] - delta, curr_pos[key] + delta)` (note the
order: for a non-positive delta this is `(current + |delta|,
current − |delta|)`).  A key absent from `curr_pos` is an uncaught
`KeyError`. -/
def set_stage_limits_relative_loop (curr_pos : List (String × PyNum))
    (new_stage_limits : List (String × PyNum × PyNum)) :
    List (String × Int) → Except Err (List (String × PyNum × PyNum))
  | [] => .ok new_stage_limits
  | (key, d) :: rest =>
    if 0 < d then .error .parameterOutOfRange
    else
      match List.lookup key curr_pos with
      | none => .error .keyError
      | some p =>
        set_stage_limits_relative_loop curr_pos
          (dictSet new_stage_limits key (p.subInt d, p.addInt d)) rest

/-- `TigerController.set_stage_limits_relative`: query the current
position with `where()`, copy the configured limits, run the update
loop, and only then store the new table via `set_stage_limits`.  An
exception escaping at any point leaves the stored table untouched. -/
def set_stage_limits_relative (st : CtrlState) (relative_limits : List (String × Int)) :
    Except Err Unit × CtrlState :=
  match whereCmd st ["X", "Y", "Z"] with
  | (.error e, st₁) => (.error e, st₁)
  | (.ok curr_pos, st₁) =>
    match get_stage_limits st₁ with
    | none => (.error .attributeError, st₁)
    | some limits =>
      match set_stage_limits_relative_loop curr_pos limits relative_limits with
      | .error e => (.error e, st₁)
      | .ok newLimits => set_stage_limits st₁ newLimits

/-- The per-axis test of `coordinate_is_out_of_bounds`: an axis missing
from the limits table, or a value strictly below its lower or above its
upper bound, is out of bounds. -/
def axisOutOfBounds (limits : List (String × PyNum × PyNum)) (p : String × PyNum) : Bool :=
  match List.lookup p.1 limits with
  | none => true
  | some (lo, hi) => decide (p.2.toQ < lo.toQ) || decide (hi.toQ < p.2.toQ)

/-- `TigerController.coordinate_is_out_of_bounds`: `False` when no
limits are configured, otherwise `any` over the requested axes. -/
def coordinate_is_out_of_bounds (st : CtrlState) (coordinates : List (String × PyNum)) :
    Bool :=
  match st.stage_limits with
  | none => false
  | some limits => coordinates.any (axisOutOfBounds limits)

/-- `TigerController.move`: the stage-limit guard raises
`ParameterOutOfRangeError` before anything reaches the transport;
otherwise the encoded `M` command is sent. -/
def move (st : CtrlState) (coordinates : List (String × PyNum)) :
    Except Err String × CtrlState :=
  if coordinate_is_out_of_bounds st coordinates then
    (.error .parameterOutOfRange, st)
  else
    send_command st
      (Command.format Command.MOVE (coordinates.map fun p => (p.1, p.2.toPyVal)) [] none)

/-! ## CRISP autofocus commands -/

/- The CRISP state codes of `command.py` (`CRISPState`). -/
namespace CRISPState

def FOCUS_CURVE : Int := 97
def DITHER : Int := 102
def IDLE : Int := 79
def LOCK : Int := 83
def LOG_CAL : Int := 72
def READY : Int := 85
def SET_GAIN : Int := 67
def SET_OFFSET : Int := 111
def OUT_OF_FOCUS : Int := 83
def UNLOCK : Int := -1

end CRISPState

/-- `re.sub(r'^:A\s+', '', s)`: strip a leading `":A"` acknowledgment
marker together with the maximal run of whitespace after it; a string
not matching the pattern is returned unchanged. -/
def stripAck (s : String) : String :=
  match s.data with
  | ':' :: 'A' :: c :: rest =>
    if isWs c then String.mk (rest.dropWhile isWs) else s
  | _ => s

/-- `TigerController.crisp_get_set_state`.  A request for the synthetic
`UNLOCK` pseudo-state (`value == CRISPState.UNLOCK`) sends the
standalone token `f"{card_address}{Command.CRISP_UNLOCK}"`; any other
request selects `CRISP_SET_STATE` when `value` is truthy (neither `None`
nor `0`) and `CRISP_GET_STATE` otherwise, encoded through
`format_crisp`.  Either way the acknowledgment marker is stripped from
the response. -/
def crisp_get_set_state (st : CtrlState) (card_address : Int) (value : Option Int) :
    Except Err String × CtrlState :=
  if value = some CRISPState.UNLOCK then
    match send_command st (toString card_address ++ Command.CRISP_UNLOCK) with
    | (.ok r, st') => (.ok (stripAck r), st')
    | (.error e, st') => (.error e, st')
  else
    let this_command :=
      match value with
      | some v => if v = 0 then Command.CRISP_GET_STATE else Command.CRISP_SET_STATE
      | none => Command.CRISP_GET_STATE
    match send_command st (Command.format_crisp this_command card_address (value.map PyVal.int)) with
    | (.ok r, st') => (.ok (stripAck r), st')
    | (.error e, st') => (.error e, st')

/-- One attempt of the regex `r':A F=([0-9]+\.[0-9]+)'` after the
literal `":A F="` has been consumed: a non-empty greedy digit run, a
dot, and a second non-empty greedy digit run.  Returns the text of
capture group 1 and the unconsumed remainder. -/
def matchNumAvgBody (rest : List Char) : Option (List Char × List Char) :=
  if (rest.takeWhile Char.isDigit).isEmpty then none
  else
    match rest.dropWhile Char.isDigit with
    | '.' :: r2 =>
      if (r2.takeWhile Char.isDigit).isEmpty then none
      else
        some (rest.takeWhile Char.isDigit ++ '.' :: r2.takeWhile Char.isDigit,
              r2.dropWhile Char.isDigit)
    | _ => none

/-- Try the whole pattern `:A F=([0-9]+\.[0-9]+)` at the head of the
text. -/
def matchNumAvg : List Char → Option (List Char × List Char)
  | ':' :: 'A' :: ' ' :: 'F' :: '=' :: rest => matchNumAvgBody rest
  | _ => none

/-- The scanning loop, with a structural fuel argument so that it
reduces in the kernel: a successful match consumes at least one
character and an unsuccessful position advances by one, so an initial
fuel of the input's length always suffices and the fuel-exhausted arm is
never reached from `subNumAvgChars`. -/
def subNumAvgFuel : Nat → List Char → List Char
  | _, [] => []
  | 0, l => l
  | n + 1, c :: cs =>
    match matchNumAvg (c :: cs) with
    | some (rep, rest) => rep ++ subNumAvgFuel n rest
    | none => c :: subNumAvgFuel n cs

/-- `re.sub(r':A F=([0-9]+\.[0-9]+)', r'\1', text)`: scan left to right,
replacing each non-overlapping match of the pattern with its capture
group (the bare numeral) and copying every other character. -/
def subNumAvgChars (l : List Char) : List Char := subNumAvgFuel l.length l

/-- `TigerController.crisp_get_set_num_avg`.  With a value, a plain
CRISP set (the raw response string comes back); without one, the get
path queries `RT F`, extracts the numeral with the `:A F=` regex
substitution and converts with `int(float(...))` — parse as float, then
truncate toward zero (an unparsable remainder is an uncaught
`ValueError`). -/
def crisp_get_set_num_avg (st : CtrlState) (card_address : Int) (value : Option Int) :
    Except Err (String ⊕ Int) × CtrlState :=
  match value with
  | some v =>
    match send_command st (Command.format_crisp Command.CRISP_NUM_AVG card_address (some (.int v))) with
    | (.ok r, st') => (.ok (.inl r), st')
    | (.error e, st') => (.error e, st')
  | none =>
    match send_command st (Command.format_crisp Command.CRISP_NUM_AVG card_address none) with
    | (.error e, st') => (.error e, st')
    | (.ok r, st') =>
      match pyParseFloatQ (String.mk (subNumAvgChars r.data)) with
      | some q => (.ok (.inr (pyTrunc q)), st')
      | none => (.error .valueError, st')

/-! ## Busy-wait polling (`wait_until_idle`, `sleep`) -/

/-- `TigerController.sleep`: a clock-polling loop that exits when the
deadline passes, or immediately when the stop event is set
(`while now < end and (stop_event is None or not stopped())`).  It
always returns and has no other observable effect; real time is
abstracted away. -/
def sleep (_stop_is_set : Bool) : Unit := ()

/-- `TigerController.wait_until_idle`, run for at most `fuel`
iterations.  `is_busy n` is the result of the n-th `is_busy` poll (each
poll is a status transaction against the instrument); `stop_is_set`
says whether the external stop event is asserted throughout.  The
source loop is `while self.is_busy(...): self.sleep(poll_interval_s)` —
note that only `sleep` ever consults the stop event; the loop condition
does not.  `some n` means the loop exited after observing `is_busy` be
false at poll `n`; `none` means it was still looping after `fuel`
polls. -/
def wait_until_idle_fuel (fuel : Nat) (is_busy : Nat → Bool) (stop_is_set : Bool) :
    Option Nat :=
  match fuel with
  | 0 => none
  | fuel + 1 =>
    if is_busy 0 then
      have := sleep stop_is_set
      (wait_until_idle_fuel fuel (fun k => is_busy (k + 1)) stop_is_set).map (· + 1)
    else some 0

/-! ## Auxiliary definitions used only in statements and proofs -/

/-- The character list of a list of tokens joined by single spaces
(what `" ".join` produces, at the character level). -/
def joinSp : List (List Char) → List Char
  | [] => []
  | t :: ts => t ++ (ts.map fun x => ' ' :: x).flatten

/-- Spec-side rendering of one coordinate, written from the words of the
claim: a value in the flag-override set renders as the bare token
`AXISvalue`; any other value renders as `AXIS=value`. -/
def renderCoordSpec (flags : List String) (p : String × PyVal) : String :=
  if pyValInFlags p.2 flags then p.1 ++ pyStr p.2 else p.1 ++ "=" ++ pyStr p.2

/-! ## Helper lemmas -/

theorem send_command_writes (st : CtrlState) (c : String) :
    ((send_command st c).2).writes = st.writes ++ [c] := by
  unfold send_command
  rcases st.responses with _ | ⟨r, rest⟩
  · rfl
  · simp only []
    split <;> rfl

theorem send_command_stage_limits (st : CtrlState) (c : String) :
    ((send_command st c).2).stage_limits = st.stage_limits := by
  unfold send_command
  rcases st.responses with _ | ⟨r, rest⟩
  · rfl
  · simp only []
    split <;> rfl

theorem whereCmd_stage_limits (st : CtrlState) (axes : List String) :
    ((whereCmd st axes).2).stage_limits = st.stage_limits := by
  unfold whereCmd
  rcases hsc : send_command st (Command.WHERE ++ " " ++ String.intercalate " " axes)
    with ⟨r, st'⟩
  have hl := send_command_stage_limits st (Command.WHERE ++ " " ++ String.intercalate " " axes)
  rw [hsc] at hl
  cases r with
  | error e => exact hl
  | ok response => simp only []; split <;> exact hl

/-! ## Claim C1 -/

/-- C1: for every coordinate map containing at least one axis whose
value lies outside the configured stage limits for that axis (or an axis
absent from the limits table), `move` raises `ParameterOutOfRangeError`
and the controller state — in particular the transport write log — is
unchanged: nothing is written during that call. -/
theorem move_out_of_bounds_rejects_before_wire
    (st : CtrlState) (limits : List (String × PyNum × PyNum))
    (coordinates : List (String × PyNum))
    (hconf : st.stage_limits = some limits)
    (hbad : ∃ p ∈ coordinates, axisOutOfBounds limits p = true) :
    move st coordinates = (.error .parameterOutOfRange, st) := by
  have hguard : coordinate_is_out_of_bounds st coordinates = true := by
    unfold coordinate_is_out_of_bounds
    rw [hconf]
    exact List.any_eq_true.mpr hbad
  unfold move
  rw [hguard]
  rfl

theorem move_out_of_bounds_rejects_before_wire_witness :
    (⟨some SAFE_STAGE_LIMITS, [], [":A"]⟩ : CtrlState).stage_limits = some SAFE_STAGE_LIMITS ∧
    (∃ p ∈ [("X", PyNum.int 70000)], axisOutOfBounds SAFE_STAGE_LIMITS p = true) ∧
    move ⟨some SAFE_STAGE_LIMITS, [], [":A"]⟩ [("X", PyNum.int 70000)] =
      (.error .parameterOutOfRange, ⟨some SAFE_STAGE_LIMITS, [], [":A"]⟩) :=
  ⟨rfl, by decide,
    move_out_of_bounds_rejects_before_wire _ SAFE_STAGE_LIMITS _ rfl (by decide)⟩

/-! ## Claim C2 -/

/-- C2: evidence against the claim.  With the default limits, current
position `X = 100` (the `where()` transaction consumes the scripted
response `":A 100 200 300"`) and the non-positive delta `-5`, the call
succeeds and stores the `X` bounds `(105, 95)` — that is
`(current + |delta|, current − |delta|)`, an inverted interval — where
the claim (and the spec) demand `(current − |delta|, current + |delta|)
= (95, 105)`.  The stored interval violates the spec's `lower ≤ upper`
invariant and makes every subsequent `X` move out of bounds. -/
theorem set_stage_limits_relative_stores_inverted_bounds :
    (set_stage_limits_relative ⟨some SAFE_STAGE_LIMITS, [], [":A 100 200 300"]⟩
        [("X", -5)]).1 = .ok () ∧
    List.lookup "X"
        ((set_stage_limits_relative ⟨some SAFE_STAGE_LIMITS, [], [":A 100 200 300"]⟩
            [("X", -5)]).2.stage_limits.getD []) =
      some (.int 105, .int 95) := by decide

/-! ## Claim C3 -/

/-- C3: evidence against the claim.  The loop of `wait_until_idle` tests
only `is_busy`; the stop event is consulted solely inside `sleep`, which
merely returns early.  Consequently, when the instrument reports BUSY on
every poll, the loop does not exit within any finite number of polls
even with the stop event asserted throughout — cancellation does not
make `wait_until_idle` return, contradicting the claimed return within
one poll interval. -/
theorem wait_until_idle_ignores_stop_when_always_busy :
    ∀ (fuel : Nat) (stop_is_set : Bool),
      wait_until_idle_fuel fuel (fun _ => true) stop_is_set = none := by
  intro fuel stop_is_set
  induction fuel with
  | zero => rfl
  | succ n ih => simp [wait_until_idle_fuel, ih]

/-! ## Claim C4 -/

/-- C4: counterexample to the claim as stated.  An `int` whose text form
has 20 characters passes through `format_crisp` untruncated: the value
portion of the emitted command keeps all 20 characters instead of being
cut to 16. -/
theorem format_crisp_long_int_not_truncated :
    Command.format_crisp Command.CRISP_NUM_AVG 1 (some (.int 12345678901234567890)) =
      "1RT F=12345678901234567890" ∧
    ("12345678901234567890" : String).length = 20 := by decide

/-- C4 (amended): `format_crisp` length-checks only `float` values
(`isinstance(value, float)`): a float whose text form exceeds 16
characters has its value portion truncated to exactly 16 characters,
while `int` and `str` values are emitted unchanged whatever their
length — unlike `format_coordinate`, which truncates every non-flag
value. -/
theorem format_crisp_truncates_floats_only :
    (∀ (tok : String) (addr : Int) (t : String),
      Command.NUMERAL_MAX_LENGTH < t.length →
        Command.format_crisp tok addr (some (.float t)) =
          toString addr ++ tok ++ "=" ++ t.take Command.NUMERAL_MAX_LENGTH) ∧
    (∀ (tok : String) (addr : Int) (i : Int),
      Command.format_crisp tok addr (some (.int i)) =
        toString addr ++ tok ++ "=" ++ toString i) ∧
    (∀ (tok : String) (addr : Int) (s : String),
      Command.format_crisp tok addr (some (.str s)) =
        toString addr ++ tok ++ "=" ++ s) := by
  refine ⟨fun tok addr t h => ?_, fun tok addr i => rfl, fun tok addr s => rfl⟩
  unfold Command.format_crisp
  simp [h, pyStr]

theorem format_crisp_truncates_floats_only_witness :
    Command.NUMERAL_MAX_LENGTH < ("12345.67890123456789" : String).length ∧
    Command.format_crisp "LR F" 2 (some (.float "12345.67890123456789")) =
      toString (2 : Int) ++ "LR F" ++ "=" ++
        ("12345.67890123456789" : String).take Command.NUMERAL_MAX_LENGTH :=
  ⟨by decide,
    format_crisp_truncates_floats_only.1 "LR F" 2 "12345.67890123456789" (by decide)⟩

/-! ## Claim C8 -/

/-- C8: the CRISP num-avg get path (`crisp_get_set_num_avg` with value
`None`) sends the query `3RT F?`, extracts the numeral of the response
`":A F=3.000"` via the `:A F=` regex substitution and converts it with
`int(float(...))` — parse as float, truncate to int — yielding the
integer `3`; parsing `"3.000"` directly as an int would fail. -/
theorem crisp_num_avg_get_parses_float_then_truncates :
    (crisp_get_set_num_avg ⟨some SAFE_STAGE_LIMITS, [], [":A F=3.000"]⟩ 3 none).1 =
      .ok (.inr 3) ∧
    (crisp_get_set_num_avg ⟨some SAFE_STAGE_LIMITS, [], [":A F=3.000"]⟩ 3 none).2.writes =
      ["3RT F?"] ∧
    pyParseInt "3.000" = none := by decide

/-! ## Splitting and joining lemmas (used for claim C5) -/

theorem intercalate_go_data (s : String) (l : List String) : ∀ (acc : String),
    (String.intercalate.go acc s l).data =
      acc.data ++ (l.map fun x => s.data ++ x.data).flatten := by
  induction l with
  | nil => intro acc; simp [String.intercalate.go]
  | cons b t ih =>
    intro acc
    simp [String.intercalate.go, ih, String.data_append, List.append_assoc]

theorem data_intercalate_space (l : List String) :
    (String.intercalate " " l).data = joinSp (l.map String.data) := by
  cases l with
  | nil => rfl
  | cons a t =>
    show (String.intercalate.go a " " t).data = _
    rw [intercalate_go_data]
    simp [joinSp, List.map_map]
    rfl

theorem splitAtWs_word (w : List Char) (rest r : List Char) (rs : List (List Char))
    (hw : ∀ c ∈ w, isWs c = false) (h : splitAtWs rest = r :: rs) :
    splitAtWs (w ++ rest) = (w ++ r) :: rs := by
  induction w with
  | nil => simpa using h
  | cons c w ih =>
    have hc : isWs c = false := hw c (by simp)
    have hrec := ih fun x hx => hw x (by simp [hx])
    simp only [List.cons_append]
    unfold splitAtWs
    simp [hc, hrec]

theorem splitAtWs_space (l : List Char) : splitAtWs (' ' :: l) = [] :: splitAtWs l := by
  simp [splitAtWs, show isWs ' ' = true from rfl]

theorem splitAtWs_joinSp :
    ∀ ts : List (List Char),
      (∀ t ∈ ts, t ≠ [] ∧ ∀ c ∈ t, isWs c = false) → ts ≠ [] →
      splitAtWs (joinSp ts) = ts := by
  intro ts
  induction ts with
  | nil => intro _ h; exact absurd rfl h
  | cons t ts ih =>
    intro h _
    cases ts with
    | nil =>
      have hj : joinSp [t] = t := by simp [joinSp]
      rw [hj]
      have := splitAtWs_word t [] [] [] (fun c hc => (h t (by simp)).2 c hc) rfl
      simpa using this
    | cons t' ts' =>
      have hj : joinSp (t :: t' :: ts') = t ++ (' ' :: joinSp (t' :: ts')) := by
        simp [joinSp]
      rw [hj]
      have hrec : splitAtWs (joinSp (t' :: ts')) = t' :: ts' :=
        ih (fun x hx => h x (by simp [hx])) (by simp)
      have hsp : splitAtWs (' ' :: joinSp (t' :: ts')) = [] :: (t' :: ts') := by
        rw [splitAtWs_space, hrec]
      have := splitAtWs_word t (' ' :: joinSp (t' :: ts')) [] (t' :: ts')
        (fun c hc => (h t (by simp)).2 c hc) hsp
      simpa using this

theorem splitOnChar_no_sep (sep : Char) (v : List Char) (hv : sep ∉ v) :
    splitOnChar sep v = [v] := by
  induction v with
  | nil => rfl
  | cons c cs ih =>
    have hc : ¬(c = sep) := fun hcc => hv (by simp [hcc])
    have hrec : splitOnChar sep cs = [cs] := ih fun hx => hv (by simp [hx])
    unfold splitOnChar
    simp [hc, hrec]

theorem splitOnChar_pair (sep : Char) (a v : List Char) (ha : sep ∉ a) (hv : sep ∉ v) :
    splitOnChar sep (a ++ sep :: v) = [a, v] := by
  induction a with
  | nil =>
    have hrec := splitOnChar_no_sep sep v hv
    simp only [List.nil_append]
    unfold splitOnChar
    simp [hrec]
  | cons c a ih =>
    have hc : ¬(c = sep) := fun hcc => ha (by simp [hcc])
    have hrec := ih fun hx => ha (by simp [hx])
    simp only [List.cons_append]
    unfold splitOnChar
    simp [hc, hrec]

theorem truncNumeral_data_subset (s : String) :
    (Command.truncNumeral s).data ⊆ s.data := by
  unfold Command.truncNumeral
  split
  · rw [String.data_take]
    exact List.take_subset _ _
  · exact fun _ h => h

theorem pairsOfTokens_rendered :
    ∀ (coords : List (String × PyVal)),
      (∀ p ∈ coords, '=' ∉ p.1.data ∧ '=' ∉ (Command.truncNumeral (pyStr p.2)).data) →
      pairsOfTokens
          (coords.map fun p => (p.1 ++ "=" ++ Command.truncNumeral (pyStr p.2)).data) =
        some (coords.map fun p => (p.1, Command.truncNumeral (pyStr p.2))) := by
  intro coords
  induction coords with
  | nil => intro _; rfl
  | cons p ps ih =>
    intro h
    have hsplit : splitEqChar (p.1.data ++ '=' :: (Command.truncNumeral (pyStr p.2)).data) =
        [p.1.data, (Command.truncNumeral (pyStr p.2)).data] :=
      splitOnChar_pair '=' _ _ (h p (by simp)).1 (h p (by simp)).2
    have hrec := ih fun q hq => h q (by simp [hq])
    simp at hrec
    simp [pairsOfTokens, hsplit, hrec]

/-! ## Claim C5 -/

/-- C5: counterexample to the claim as stated.  For the coordinate map
`{"X": 1234, "Y": "+"}` with flag-override set `["+"]`, `format` emits
`"M X=1234 Y+"`, and `_dict_from_response` applied to that string fails
(the bare flag token `Y+` contains no `=`, so the Python pair unpacking
raises `ValueError`): no `AXIS=value` pairs are produced at all, so the
original value `1234` of the non-flag axis `X` is not reproduced. -/
theorem format_flag_value_breaks_dict_extraction :
    Command.format Command.MOVE [("X", .int 1234), ("Y", .str "+")] ["+"] none =
      "M X=1234 Y+" ∧
    dict_from_response "M X=1234 Y+" = none := by decide

/-- C5 (amended): for every coordinate map whose axis names are
whitespace- and `=`-free, whose values have whitespace- and `=`-free
texts, and in which no value is a member of the flag-override set,
encoding with `format` and then extracting the `AXIS=value` pairs with
`_dict_from_response` (drop the first token, split the rest on `=`)
reproduces, for every axis, exactly the text of the original value
truncated by the 16-character rule — in particular the original numeric
value itself whenever its text fits in 16 characters.  (The amendment
excludes flag-valued axes: as the counterexample shows, a bare flag
token makes the parser fail.) -/
theorem format_parse_roundtrip
    (coords : List (String × PyVal)) (flags : List String)
    (haxis : ∀ p ∈ coords, (∀ c ∈ p.1.data, isWs c = false) ∧ '=' ∉ p.1.data)
    (hval : ∀ p ∈ coords, (∀ c ∈ (pyStr p.2).data, isWs c = false) ∧ '=' ∉ (pyStr p.2).data)
    (hnoflag : ∀ p ∈ coords, pyValInFlags p.2 flags = false) :
    dict_from_response (Command.format Command.MOVE coords flags none) =
      some (coords.map fun p => (p.1, Command.truncNumeral (pyStr p.2))) := by
  by_cases hce : coords = []
  · subst hce; rfl
  · have hfmt : Command.format Command.MOVE coords flags none =
        "M" ++ " " ++ String.intercalate " "
          (coords.map fun p => p.1 ++ "=" ++ Command.truncNumeral (pyStr p.2)) := by
      have hie : coords.isEmpty = false := by simpa [List.isEmpty_iff] using hce
      unfold Command.format Command.format_coordinates
      rw [hie]
      simp only [Bool.false_eq_true, if_false]
      congr 2
      apply List.map_congr_left
      intro p hp
      unfold Command.format_coordinate
      simp [hnoflag p hp]
    have hdata : (Command.format Command.MOVE coords flags none).data =
        'M' :: ' ' :: joinSp ((coords.map fun p =>
          p.1 ++ "=" ++ Command.truncNumeral (pyStr p.2)).map String.data) := by
      rw [hfmt]
      simp [String.data_append, data_intercalate_space]
    have hts : ∀ t ∈ (coords.map fun p =>
        p.1 ++ "=" ++ Command.truncNumeral (pyStr p.2)).map String.data,
        t ≠ [] ∧ ∀ c ∈ t, isWs c = false := by
      intro t ht
      rw [List.map_map] at ht
      obtain ⟨p, hp, rfl⟩ := List.mem_map.mp ht
      have htd : (Function.comp String.data fun p =>
          p.1 ++ "=" ++ Command.truncNumeral (pyStr p.2)) p =
          p.1.data ++ '=' :: (Command.truncNumeral (pyStr p.2)).data := by
        simp [Function.comp, String.data_append]
      rw [htd]
      constructor
      · simp
      · intro c hcmem
        rcases List.mem_append.mp hcmem with hca | hcr
        · exact (haxis p hp).1 c hca
        · rcases List.mem_cons.mp hcr with hceq | hcv
          · subst hceq; rfl
          · exact (hval p hp).1 c (truncNumeral_data_subset (pyStr p.2) hcv)
    have hjs : splitAtWs (joinSp ((coords.map fun p =>
        p.1 ++ "=" ++ Command.truncNumeral (pyStr p.2)).map String.data)) =
        (coords.map fun p => p.1 ++ "=" ++ Command.truncNumeral (pyStr p.2)).map String.data :=
      splitAtWs_joinSp _ hts (by simp [hce])
    have hsp : splitAtWs (' ' :: joinSp ((coords.map fun p =>
        p.1 ++ "=" ++ Command.truncNumeral (pyStr p.2)).map String.data)) =
        [] :: (coords.map fun p =>
          p.1 ++ "=" ++ Command.truncNumeral (pyStr p.2)).map String.data := by
      rw [splitAtWs_space, hjs]
    have hword := splitAtWs_word ['M'] _ [] _ (by decide) hsp
    have htok : splitWsChars (Command.format Command.MOVE coords flags none).data =
        ['M'] :: (coords.map fun p =>
          p.1 ++ "=" ++ Command.truncNumeral (pyStr p.2)).map String.data := by
      unfold splitWsChars
      rw [hdata]
      rw [show ('M' :: ' ' :: joinSp ((coords.map fun p =>
        p.1 ++ "=" ++ Command.truncNumeral (pyStr p.2)).map String.data)) =
        ['M'] ++ (' ' :: joinSp ((coords.map fun p =>
          p.1 ++ "=" ++ Command.truncNumeral (pyStr p.2)).map String.data)) from rfl]
      rw [hword]
      rw [List.filter_cons_of_pos (by decide)]
      congr 1
      exact List.filter_eq_self.mpr fun t ht => by
        simpa [List.isEmpty_iff] using (hts t ht).1
    unfold dict_from_response
    rw [htok]
    simp only [List.drop_succ_cons, List.drop_zero, List.map_map]
    have hpairs := pairsOfTokens_rendered coords fun p hp =>
      ⟨(haxis p hp).2,
        fun hmem => (hval p hp).2 (truncNumeral_data_subset (pyStr p.2) hmem)⟩
    have hcomp : (String.data ∘ fun p : String × PyVal =>
        p.1 ++ "=" ++ Command.truncNumeral (pyStr p.2)) =
        fun p : String × PyVal =>
          p.1.data ++ '=' :: (Command.truncNumeral (pyStr p.2)).data := by
      funext p
      simp [Function.comp, String.data_append]
    rw [hcomp]
    simp only [] at hpairs
    convert hpairs using 2
    simp [String.data_append]

theorem format_parse_roundtrip_witness :
    dict_from_response (Command.format Command.MOVE
        [("X", PyVal.int 1234), ("Y", PyVal.int 55)] ["+"] none) =
      some [("X", "1234"), ("Y", "55")] :=
  (format_parse_roundtrip [("X", PyVal.int 1234), ("Y", PyVal.int 55)] ["+"]
    (by decide) (by decide) (by decide)).trans (by decide)

/-! ## Claim C6 -/

/-- C6: `format` renders each coordinate whose value is in the
flag-override set as the bare token `AXISvalue` and every other
coordinate as `AXIS=value` (shown against `renderCoordSpec`, the
renderer written from the claim's words, for values whose text fits the
16-character numeral limit), joins the renderings with single spaces and
appends them to the command token after one space; in particular
`format(MOVE, {"X": 1234, "Y": "+"}, flag_overrides=["+"])` is exactly
`"M X=1234 Y+"`. -/
theorem format_renders_flags_bare_and_others_assigned :
    (∀ (cmd : String) (coords : List (String × PyVal)) (flags : List String),
      coords ≠ [] →
      (∀ p ∈ coords, (pyStr p.2).length ≤ Command.NUMERAL_MAX_LENGTH) →
      Command.format cmd coords flags none =
        cmd ++ " " ++ String.intercalate " " (coords.map (renderCoordSpec flags))) ∧
    Command.format Command.MOVE [("X", .int 1234), ("Y", .str "+")] ["+"] none =
      "M X=1234 Y+" := by
  constructor
  · intro cmd coords flags hne hlen
    have hie : coords.isEmpty = false := by simpa [List.isEmpty_iff] using hne
    unfold Command.format Command.format_coordinates
    rw [hie]
    simp only [Bool.false_eq_true, if_false]
    congr 2
    apply List.map_congr_left
    intro p hp
    unfold Command.format_coordinate renderCoordSpec Command.truncNumeral
    split
    · rfl
    · rw [if_neg (Nat.not_lt.mpr (hlen p hp))]
  · decide

theorem format_renders_flags_bare_and_others_assigned_witness :
    Command.format Command.MOVREL [("X", .int 5), ("Y", .str "?")] ["?"] none =
      Command.MOVREL ++ " " ++
        String.intercalate " "
          ([("X", PyVal.int 5), ("Y", PyVal.str "?")].map (renderCoordSpec ["?"])) :=
  format_renders_flags_bare_and_others_assigned.1 Command.MOVREL
    [("X", .int 5), ("Y", .str "?")] ["?"] (by decide) (by decide)

/-! ## Claim C7 -/

/-- C7: requesting the synthetic `UNLOCK` pseudo-state through
`crisp_get_set_state` writes exactly the standalone token
`{address}UL` (the distinct `CRISP_UNLOCK` command) to the transport —
one write, and that write is never of the `SET_STATE` assignment shape
`{address}LK F=value` for any value text. -/
theorem crisp_unlock_sends_standalone_token :
    (∀ (st : CtrlState) (addr : Int),
      ((crisp_get_set_state st addr (some CRISPState.UNLOCK)).2).writes =
        st.writes ++ [toString addr ++ Command.CRISP_UNLOCK]) ∧
    (∀ (addr : Int) (v : String),
      toString addr ++ Command.CRISP_UNLOCK ≠
        toString addr ++ (Command.CRISP_SET_STATE ++ "=" ++ v)) := by
  constructor
  · intro st addr
    unfold crisp_get_set_state
    rw [if_pos rfl]
    rcases hsc : send_command st (toString addr ++ Command.CRISP_UNLOCK) with ⟨r, st'⟩
    have hw := send_command_writes st (toString addr ++ Command.CRISP_UNLOCK)
    rw [hsc] at hw
    cases r <;> simpa using hw
  · intro addr v h
    have h2 := congrArg String.data h
    simp only [String.data_append, List.append_assoc] at h2
    have h3 := List.append_cancel_left h2
    have h4 : (['U', 'L'] : List Char) =
        'L' :: 'K' :: ' ' :: 'F' :: '=' :: v.data := h3
    have h5 : ('U' : Char) = 'L' := (List.cons.inj h4).1
    exact absurd h5 (by decide)

/-! ## Claim C9 -/

/-- C9: `format` does not prefix a card address of `0` (Python
truthiness: `if card_address:`), so formatting with address `0` equals
formatting with no address at all; `format_crisp`, by contrast, prefixes
the address unconditionally — for every address, including `0`, the
emitted string is the address text followed by the rest of the
command. -/
theorem format_zero_address_dropped_crisp_address_kept :
    (∀ (cmd : String) (coords : List (String × PyVal)) (flags : List String),
      Command.format cmd coords flags (some 0) = Command.format cmd coords flags none) ∧
    (∀ (tok : String) (addr : Int) (v : Option PyVal),
      ∃ rest, Command.format_crisp tok addr v = toString addr ++ rest) := by
  constructor
  · intro cmd coords flags
    simp [Command.format]
  · intro tok addr v
    unfold Command.format_crisp
    rcases v with _ | val
    · exact ⟨tok ++ "?", by simp [String.append_assoc]⟩
    · cases val with
      | int i => exact ⟨tok ++ "=" ++ toString i, by simp [pyStr, String.append_assoc]⟩
      | str s => exact ⟨tok ++ "=" ++ s, by simp [pyStr, String.append_assoc]⟩
      | float t =>
        by_cases h : Command.NUMERAL_MAX_LENGTH < t.length
        · exact ⟨tok ++ "=" ++ t.take Command.NUMERAL_MAX_LENGTH,
            by simp [h, pyStr, String.append_assoc]⟩
        · exact ⟨tok ++ "=" ++ t, by simp [h, pyStr, String.append_assoc]⟩

/-! ## Claim C10 -/

/-- C10: whenever `set_stage_limits_relative` ends in an error — in
particular the `ParameterOutOfRangeError` raised for a positive delta —
the configured stage limits observable via `get_stage_limits` are
exactly what they were before the call, even when other axes of the same
map carried valid non-positive deltas: the loop mutates only a local
copy and the stored table is only replaced after the whole loop
succeeds. -/
theorem set_stage_limits_relative_unchanged_or_ok
    (st : CtrlState) (rel : List (String × Int)) :
    ((set_stage_limits_relative st rel).2).stage_limits = st.stage_limits ∨
    (set_stage_limits_relative st rel).1 = .ok () := by
  unfold set_stage_limits_relative
  rcases hw : whereCmd st ["X", "Y", "Z"] with ⟨r, st₁⟩
  have hl : st₁.stage_limits = st.stage_limits := by
    have := whereCmd_stage_limits st ["X", "Y", "Z"]
    rw [hw] at this
    exact this
  cases r with
  | error e' => exact Or.inl hl
  | ok pos =>
    dsimp only []
    rcases hg : get_stage_limits st₁ with _ | limits
    · exact Or.inl hl
    · dsimp only []
      rcases hloop : set_stage_limits_relative_loop pos limits rel with e'' | newL
      · exact Or.inl hl
      · dsimp only []
        unfold set_stage_limits
        split
        · exact Or.inr rfl
        · exact Or.inl hl

theorem set_stage_limits_relative_error_keeps_limits
    (st : CtrlState) (rel : List (String × Int)) (e : Err)
    (h : (set_stage_limits_relative st rel).1 = .error e) :
    get_stage_limits ((set_stage_limits_relative st rel).2) = get_stage_limits st := by
  rcases set_stage_limits_relative_unchanged_or_ok st rel with hcase | hok
  · exact hcase
  · rw [h] at hok
    exact absurd hok (by simp)

theorem set_stage_limits_relative_error_keeps_limits_witness :
    ((set_stage_limits_relative ⟨some SAFE_STAGE_LIMITS, [], [":A 100 200 300"]⟩
        [("X", -5), ("Y", 3)]).1 = Except.error Err.parameterOutOfRange) ∧
    get_stage_limits ((set_stage_limits_relative
        ⟨some SAFE_STAGE_LIMITS, [], [":A 100 200 300"]⟩ [("X", -5), ("Y", 3)]).2) =
      get_stage_limits ⟨some SAFE_STAGE_LIMITS, [], [":A 100 200 300"]⟩ :=
  ⟨by decide,
    set_stage_limits_relative_error_keeps_limits _ _ Err.parameterOutOfRange (by decide)⟩

end Asitiger
